import Mathlib

/-!
# Verification of the Akashvani voice news assistant core

Shallow embedding of the repository's orchestration pipeline:
`NewsService` (src/services/news_service.py), `SpeechService` formatting
(src/services/speech_service.py), `AIService` intent classification
(src/services/ai_service.py), `ConversationHandler`
(src/services/conversation_handler.py) and the audio-blob registry of
src/main.py.  External collaborators (the news provider, the speech
provider, the chat model) are passed in as explicit oracle values;
a Python `raise` at a call site is modelled with `Except`.
-/

namespace Akashvani

/-- Raw audio bytes. -/
abbrev Audio := List Nat

/-- Config.NEWS_CATEGORIES from src/config.py, in declaration order. -/
def NEWS_CATEGORIES : List String :=
  ["technology", "politics", "sports", "entertainment", "business", "health", "science"]

/-- Python `sub in s` (contiguous substring containment). -/
def strContains (s sub : String) : Bool :=
  s.toList.tails.any (fun t => sub.toList.isPrefixOf t)

/-- Python `str.lower()` (character-wise lowercasing; identical to
`String.toLower`, stated structurally so the kernel can evaluate it). -/
def pyLower (s : String) : String := ⟨s.data.map Char.toLower⟩

/-- Accumulator pass for `pySplit`: `cur` holds the current word reversed. -/
def pySplitAux : List Char → List Char → List String
  | cur, [] => if cur.isEmpty then [] else [String.mk cur.reverse]
  | cur, c :: rest =>
      if c.isWhitespace then
        if cur.isEmpty then pySplitAux [] rest
        else String.mk cur.reverse :: pySplitAux [] rest
      else pySplitAux (c :: cur) rest

/-- Python `str.split()` with no argument: split on whitespace runs,
dropping empty pieces. -/
def pySplit (s : String) : List String := pySplitAux [] s.data

/-- A raw provider article as the handler reads it: each field either
present with a string value or absent (`none`), mirroring dict `.get`. -/
structure RawArticle where
  title : Option String := none
  description : Option String := none
  sourceName : Option String := none
  url : Option String := none
  publishedAt : Option String := none
deriving DecidableEq, Repr

/-- The normalized article dict built in `NewsService.get_top_headlines`
and `NewsService.search_news`. -/
structure Article where
  number : Nat
  title : String
  description : String
  source : String
  url : String
  publishedAt : String
deriving DecidableEq, Repr

/-- One loop step of the normalization in src/services/news_service.py
lines 34-43 / 116-125: `article.get(field, "")` with 1-based `number`. -/
def formatArticle (i : Nat) (a : RawArticle) : Article :=
  { number := i
    title := a.title.getD ""
    description := a.description.getD ""
    source := a.sourceName.getD ""
    url := a.url.getD ""
    publishedAt := a.publishedAt.getD "" }

/-- Loop `for i, article in enumerate(articles, 1)` with starting index `i`. -/
def normalizeFrom (i : Nat) : List RawArticle → List Article
  | [] => []
  | a :: rest => formatArticle i a :: normalizeFrom (i + 1) rest

/-- Model of `NewsService` normalization: `enumerate(articles[:limit], 1)` mapped
through `formatArticle`. -/
def normalize (articles : List RawArticle) (limit : Nat) : List Article :=
  normalizeFrom 1 (articles.take limit)

/-- Model of `NewsService.get_top_headlines`.  `resp` is the provider outcome as the
method sees it: `none` models the request/parse raising (caught at line 47,
returning `[]`), `some articles` the parsed `data["articles"]` list. -/
def get_top_headlines (category : String) (country : String) (resp : Option (List RawArticle))
    (limit : Nat) : List Article :=
  match resp with
  | none => []
  | some articles => normalize articles limit

/-- Model of `NewsService.search_news`: identical normalization, query instead of
category. -/
def search_news (query : String) (resp : Option (List RawArticle)) (limit : Nat) :
    List Article :=
  match resp with
  | none => []
  | some articles => normalize articles limit

/-- Model of `NewsService.get_all_categories_news`: loop over `Config.NEWS_CATEGORIES`
accumulating `all_news[category]`, with the per-category `try/except`
turning any failure (`fetch c = none`) into `[]` for that category only. -/
def get_all_categories_news (fetch : String → Option (List RawArticle))
    (limit_per_category : Nat) : List (String × List Article) :=
  NEWS_CATEGORIES.foldl
    (fun all_news category =>
      all_news ++ [(category, get_top_headlines category "us" (fetch category) limit_per_category)])
    []

/-! ## JSON-faithful provider article model

The provider returns parsed JSON, so a field can be absent, present with
null, or present with a string; Python's `dict.get(k, "")` substitutes the
default only for an absent key and passes a present null through as
`None`.  The three-state model below captures exactly this for the
normalization of `NewsService.get_top_headlines` / `search_news`. -/

/-- A string-valued JSON field of a provider article: absent key, present
null, or present string. -/
inductive JField where
  | absent : JField
  | null : JField
  | str (s : String) : JField
deriving DecidableEq, Repr

/-- Python `article.get(k, default)` on a `JField`: the default replaces
only an absent key; a present null comes back as `None` (`none`). -/
def jGetD (f : JField) (default : String) : Option String :=
  match f with
  | .absent => some default
  | .null => none
  | .str s => some s

/-- The `"source"` value of a provider article: absent key, present null,
or an object whose `"name"` field is again a `JField`. -/
inductive JSource where
  | absent : JSource
  | null : JSource
  | obj (name : JField) : JSource
deriving DecidableEq, Repr

/-- Python `article.get("source", {}).get("name", "")`: an absent source
falls back to the empty dict (name lookup yields `""`), a source object
resolves its name field via `jGetD`, and a null source makes the second
`.get` an attribute access on `None`, raising `AttributeError`
(`Except.error`). -/
def jSourceName : JSource → Except Unit (Option String)
  | .absent => .ok (some "")
  | .null => .error ()
  | .obj name => .ok (jGetD name "")

/-- A raw provider article with JSON-faithful fields. -/
structure RawArticleJ where
  title : JField := .absent
  description : JField := .absent
  source : JSource := .absent
  url : JField := .absent
  publishedAt : JField := .absent
deriving DecidableEq, Repr

/-- The normalized article dict as Python actually leaves it: a field is
`none` exactly when `dict.get` returned the stored `None` of a present
JSON null. -/
structure ArticleJ where
  number : Nat
  title : Option String
  description : Option String
  source : Option String
  url : Option String
  publishedAt : Option String
deriving DecidableEq, Repr

/-- One loop step of the normalization over the JSON-faithful model
(news_service.py lines 34-43 / 116-125); a null source raises. -/
def formatArticleJ (i : Nat) (a : RawArticleJ) : Except Unit ArticleJ :=
  match jSourceName a.source with
  | .error e => .error e
  | .ok src =>
      .ok { number := i
            title := jGetD a.title ""
            description := jGetD a.description ""
            source := src
            url := jGetD a.url ""
            publishedAt := jGetD a.publishedAt "" }

/-- Loop `for i, article in enumerate(articles, 1)` over the JSON-faithful
model; a raise at any article aborts the whole loop (the `try` wraps the
entire function body). -/
def normalizeFromJ (i : Nat) : List RawArticleJ → Except Unit (List ArticleJ)
  | [] => .ok []
  | a :: rest =>
      match formatArticleJ i a with
      | .error e => .error e
      | .ok art =>
          match normalizeFromJ (i + 1) rest with
          | .error e => .error e
          | .ok arts => .ok (art :: arts)

/-- Normalization `enumerate(articles[:limit], 1)` over the JSON-faithful
model. -/
def normalizeJ (articles : List RawArticleJ) (limit : Nat) : Except Unit (List ArticleJ) :=
  normalizeFromJ 1 (articles.take limit)

/-- Model of `NewsService.get_top_headlines` over the JSON-faithful
provider model: `none` models the request/parse raising, and any raise
during normalization (a null source) is caught by the same `except`,
returning `[]`. -/
def get_top_headlinesJ (category : String) (country : String)
    (resp : Option (List RawArticleJ)) (limit : Nat) : List ArticleJ :=
  match resp with
  | none => []
  | some articles =>
      match normalizeJ articles limit with
      | .error _ => []
      | .ok arts => arts

/-- Model of `NewsService.search_news` over the JSON-faithful provider
model: identical normalization, query instead of category. -/
def search_newsJ (query : String) (resp : Option (List RawArticleJ)) (limit : Nat) :
    List ArticleJ :=
  match resp with
  | none => []
  | some articles =>
      match normalizeJ articles limit with
      | .error _ => []
      | .ok arts => arts

/-! ## AIService (src/services/ai_service.py) -/

/-- The dict returned by `AIService.process_user_input` /
`_parse_fallback_response`, read back with `.get(key, default)`:
each field is present (`some`) or absent (`none`). -/
structure AIResponse where
  intent : Option String := none
  category : Option String := none
  search_query : Option String := none
  response : Option String := none
  action : Option String := none
deriving DecidableEq, Repr

/-- The fixed self-introduction of the fallback greeting branch. -/
def greetingText : String :=
  "Hello! I'm Akashvani AI, your voice assistant for news updates. Ask me for news from any category like technology, politics, sports, or entertainment!"

/-- Model of `AIService._parse_fallback_response` (ai_service.py lines 84-122):
deterministic keyword rules on the lowercased user text, applied when the
model reply failed to parse as JSON. -/
def parse_fallback_response (ai_response user_text : String) : AIResponse :=
  let lower := pyLower user_text
  match NEWS_CATEGORIES.find?
      (fun c => strContains lower c || strContains lower (c ++ " news")) with
  | some c =>
      { intent := some "news_category"
        category := some c
        response := some ("Let me get the latest " ++ c ++ " news for you.")
        action := some "fetch_news" }
  | none =>
      if ["news", "headlines", "updates"].any (fun w => strContains lower w) then
        { intent := some "news_category"
          category := some "general"
          response := some "Let me get the latest news updates for you."
          action := some "fetch_news" }
      else if ["hello", "hi", "hey", "good morning", "good evening"].any
          (fun w => strContains lower w) then
        { intent := some "greeting"
          response := some greetingText
          action := some "respond_only" }
      else
        { intent := some "general_conversation"
          response := some ai_response
          action := some "respond_only" }

/-- The fallback rules as the specification words them: precedence
(1) literal category-name occurrence, (2) news/headlines/updates,
(3) greeting words, (4) echo the raw model text. -/
def fallbackSpec (ai_response user_text : String) : AIResponse :=
  let lower := pyLower user_text
  match NEWS_CATEGORIES.find? (fun c => strContains lower c) with
  | some c =>
      { intent := some "news_category"
        category := some c
        response := some ("Let me get the latest " ++ c ++ " news for you.")
        action := some "fetch_news" }
  | none =>
      if ["news", "headlines", "updates"].any (fun w => strContains lower w) then
        { intent := some "news_category"
          category := some "general"
          response := some "Let me get the latest news updates for you."
          action := some "fetch_news" }
      else if ["hello", "hi", "hey", "good morning", "good evening"].any
          (fun w => strContains lower w) then
        { intent := some "greeting"
          response := some greetingText
          action := some "respond_only" }
      else
        { intent := some "general_conversation"
          response := some ai_response
          action := some "respond_only" }

/-- A chat message dict `{"role": ..., "content": ...}`. -/
structure ChatMsg where
  role : String
  content : String
deriving DecidableEq, Repr

/-- The system prompt of `AIService.process_user_input` (contents are
irrelevant to every property proved below). -/
def system_prompt : String :=
  "You are Akashvani AI, a helpful voice assistant that specializes in delivering news updates."

/-- The system message heading every inference request. -/
def systemMsg : ChatMsg := ⟨"system", system_prompt⟩

/-- Python `l[-n:]`: the last `min n (length l)` elements. -/
def lastN (n : Nat) (l : List α) : List α := l.drop (l.length - n)

/-- Outcome of the upstream chat call inside `process_user_input`:
the call raises (`failure`), or returns raw text `raw` that either parses
as JSON into an `AIResponse` (`parsed = some r`) or does not
(`parsed = none`). -/
inductive ModelReply where
  | failure : ModelReply
  | reply (parsed : Option AIResponse) (raw : String) : ModelReply
deriving DecidableEq, Repr

/-- Model of `AIService.process_user_input` (ai_service.py lines 16-82), given the
stored `conversation_history`, the user text, and the upstream outcome.
Returns (request messages sent upstream, result dict, new stored history).
On upstream failure the user message was already appended (line 22) but
the assistant reply was not; the request had been assembled either way. -/
def process_user_input (history : List ChatMsg) (user_text : String) (m : ModelReply) :
    List ChatMsg × AIResponse × List ChatMsg :=
  let h1 := history ++ [⟨"user", user_text⟩]
  let request := systemMsg :: lastN 5 h1
  match m with
  | .failure =>
      (request,
       { intent := some "general_conversation"
         response := some "I'm sorry, I'm having trouble processing your request right now. Please try again."
         action := some "respond_only" },
       h1)
  | .reply parsed raw =>
      let h2 := h1 ++ [⟨"assistant", raw⟩]
      match parsed with
      | some result => (request, result, h2)
      | none => (request, parse_fallback_response raw user_text, h2)

/-- The request shape claimed by the specification: system prompt, then the
current user text *plus* the most recent 5 turns of the stored rolling
history (oldest first). -/
def claimedRequest (history : List ChatMsg) (user_text : String) : List ChatMsg :=
  systemMsg :: (lastN 5 history ++ [⟨"user", user_text⟩])

/-! ## SpeechService.format_news_for_speech (speech_service.py lines 171-197) -/

/-- The per-article text block: `"Headline {i}: {title}. "`, then, when the
description is non-empty and differs from the title, its first 25 words
with `"..."` appended when exactly 25 words were taken, then `"\n\n"`. -/
def headlineBlock (i : Nat) (a : Article) : String :=
  let base := "Headline " ++ toString i ++ ": " ++ a.title ++ ". "
  let withDesc :=
    if a.description ≠ "" ∧ a.description ≠ a.title then
      let desc_words := (pySplit a.description).take 25
      let summary := " ".intercalate desc_words
      let summary := if desc_words.length = 25 then summary ++ "..." else summary
      base ++ summary ++ " "
    else base
  withDesc ++ "\n\n"

/-- Loop of `SpeechService.format_news_for_speech`:
`for i, article in enumerate(articles, 1): speech_text += ...`. -/
def speechLoop (i : Nat) (acc : String) : List Article → String
  | [] => acc
  | a :: rest => speechLoop (i + 1) (acc ++ headlineBlock i a) rest

/-- Model of `SpeechService.format_news_for_speech`: the voice formatter shared by
the news-fetch and search paths of the conversation handler. -/
def format_news_for_speech (articles : List Article) (category : String) : String :=
  if articles.isEmpty then
    "Sorry, I couldn't fetch any news for " ++ category ++ " at the moment."
  else
    speechLoop 1 ("Here are the top " ++ category ++ " news headlines:\n\n") articles

/-! ## ConversationHandler (src/services/conversation_handler.py) -/

/-- Field `last_news_data` holds either the flat article list of a category fetch
or search, or the category→articles dict stored by a `"general"` fetch. -/
inductive NewsData where
  | articles (l : List Article) : NewsData
  | byCategory (m : List (String × List Article)) : NewsData
deriving DecidableEq, Repr

/-- The handler's `current_session` dict; `none` marks an absent key. -/
structure Session where
  voice_preference : Option String := some "female"
  last_category : Option String := none
  last_search : Option String := none
  last_news_data : Option NewsData := none
  last_action : Option String := none
deriving DecidableEq, Repr

/-- The collaborator calls the handler awaits, as the handler sees them.
An `Except.error` at a call site models that call raising; the service
implementations' own catch-alls normally prevent this, but the handler's
`try/except` blocks are written against arbitrary failure. -/
structure Oracles where
  transcribe : Except Unit (Option String)
  classify : Except Unit AIResponse
  fetchTop : String → Except Unit (List Article)
  fetchAll : Except Unit (List (String × List Article))
  search : String → Except Unit (List Article)
  synth : String → String → Except Unit (Option Audio)

/-- Model of `ConversationHandler._format_general_news_update` (lines 143-160):
one `"Top {category} headline: {title}."` line per non-empty category. -/
def format_general_news_update (all_news : List (String × List Article)) : String :=
  let body := all_news.foldl
    (fun r p =>
      match p.2 with
      | [] => r
      | a :: _ => r ++ "Top " ++ p.1 ++ " headline: " ++ a.title ++ ".\n\n")
    "Here's your news briefing from Akashvani AI.\n\n"
  body ++ "Which category would you like me to read in detail?"

/-- Model of `ConversationHandler._handle_news_request` (lines 89-115).  Session
update happens last, so a raise from a fetch leaves the session unchanged
and propagates to `_handle_intent`'s catch. -/
def handle_news_request (O : Oracles) (s : Session) (resp : AIResponse) :
    Except Unit (String × Session) :=
  let category := resp.category.getD "general"
  if category = "general" then
    match O.fetchAll with
    | .error e => .error e
    | .ok all_news =>
        .ok (format_general_news_update all_news,
             { s with last_category := some category
                      last_news_data := some (.byCategory all_news)
                      last_action := some "news_fetch" })
  else
    match O.fetchTop category with
    | .error e => .error e
    | .ok news_articles =>
        let response :=
          if news_articles.isEmpty then
            "I'm sorry, I couldn't fetch " ++ category ++
              " news at the moment. Would you like news from another category?"
          else format_news_for_speech news_articles category
        .ok (response,
             { s with last_category := some category
                      last_news_data := some (.articles news_articles)
                      last_action := some "news_fetch" })

/-- Model of `ConversationHandler._handle_news_search` (lines 117-141).  An empty
`search_query` returns a clarification *before* any fetch or session
update. -/
def handle_news_search (O : Oracles) (s : Session) (resp : AIResponse) :
    Except Unit (String × Session) :=
  let search_query := resp.search_query.getD ""
  if search_query = "" then
    .ok ("I need a specific topic to search for. What news would you like me to find?", s)
  else
    match O.search search_query with
    | .error e => .error e
    | .ok search_results =>
        let response :=
          if search_results.isEmpty then
            "I couldn't find any recent news about '" ++ search_query ++
              "'. Would you like me to search for something else?"
          else
            format_news_for_speech search_results ("search results for " ++ search_query)
        .ok (response,
             { s with last_search := some search_query
                      last_news_data := some (.articles search_results)
                      last_action := some "news_search" })

/-- Model of `ConversationHandler._handle_intent` (lines 69-87): dispatch on the
`action` field; its own `try/except` converts a raise from either news
branch into a fixed apology, leaving the session as the branch left it
(unchanged, since both branches mutate only on success). -/
def handle_intent (O : Oracles) (s : Session) (resp : AIResponse) : String × Session :=
  let action := resp.action.getD "respond_only"
  if action = "fetch_news" then
    match handle_news_request O s resp with
    | .ok r => r
    | .error _ =>
        ("I'm sorry, I encountered an issue while processing your request. Please try again.", s)
  else if action = "search_news" then
    match handle_news_search O s resp with
    | .ok r => r
    | .error _ =>
        ("I'm sorry, I encountered an issue while processing your request. Please try again.", s)
  else
    (resp.response.getD "I'm here to help you with news updates!", s)

/-- Fixed clarification of `handle_voice_input` for an empty transcript. -/
def clarifText : String :=
  "I'm sorry, I couldn't understand what you said. Could you please try again?"

/-- Fixed apology of `handle_voice_input`'s top-level `except` block. -/
def techDiffText : String :=
  "I'm experiencing some technical difficulties. Please try again in a moment."

/-- Fixed apology of `handle_text_input`'s top-level `except` block. -/
def textErrText : String :=
  "I'm sorry, I encountered an error processing your request."

/-- The `try` body of `ConversationHandler.handle_voice_input`
(lines 21-40).  `Except.error s₁` models an uncaught raise inside the
body with the session in state `s₁` at that point. -/
def handle_voice_body (O : Oracles) (s : Session) (voice_type : String) :
    Except Session ((String × Option Audio) × Session) :=
  match O.transcribe with
  | .error _ => .error s
  | .ok transcript =>
      if transcript = none ∨ transcript = some "" then
        match O.synth clarifText voice_type with
        | .error _ => .error s
        | .ok audio => .ok ((clarifText, audio), s)
      else
        match O.classify with
        | .error _ => .error s
        | .ok ai_response =>
            let (final_response, s') := handle_intent O s ai_response
            match O.synth final_response voice_type with
            | .error _ => .error s'
            | .ok audio => .ok ((final_response, audio), s')

/-- Model of `ConversationHandler.handle_voice_input` (lines 17-46): the body above
wrapped in the top-level `except`, whose recovery itself awaits
`synthesize_speech` — a raise there escapes the handler. -/
def handle_voice_input (O : Oracles) (s : Session) (voice_type : String) :
    Except Session ((String × Option Audio) × Session) :=
  match handle_voice_body O s voice_type with
  | .ok r => .ok r
  | .error s₁ =>
      match O.synth techDiffText voice_type with
      | .error _ => .error s₁
      | .ok audio => .ok ((techDiffText, audio), s₁)

/-- Model of `ConversationHandler.handle_text_input` (lines 48-67): classify,
dispatch, synthesize; any raise is converted to `(textErrText, none)`
with no synthesis attempt for the apology. -/
def handle_text_input (O : Oracles) (s : Session) (voice_type : String) :
    (String × Option Audio) × Session :=
  match O.classify with
  | .error _ => ((textErrText, none), s)
  | .ok ai_response =>
      let (final_response, s') := handle_intent O s ai_response
      match O.synth final_response voice_type with
      | .error _ => ((textErrText, none), s')
      | .ok audio => ((final_response, audio), s')

/-- Model of `ConversationHandler.get_detailed_article` (lines 230-246).
`len` works on both shapes of `last_news_data`, but the subsequent
`last_news_data[article_number - 1]` on the category dict raises
`KeyError` (its keys are category strings, the subscript an int);
`Except.error ()` models that raise. -/
def get_detailed_article (s : Session) (article_number : Int) : Except Unit String :=
  let last_news_data := s.last_news_data.getD (.articles [])
  let len : Nat :=
    match last_news_data with
    | .articles l => l.length
    | .byCategory m => m.length
  if len = 0 ∨ article_number < 1 ∨ article_number > (len : Int) then
    .ok "I don't have that article number. Please ask for a valid article number from the recent news."
  else
    match last_news_data with
    | .articles l =>
        let article := l.getD ((article_number - 1).toNat) (formatArticle 0 {})
        .ok ("Here's more detail about article " ++ toString article_number ++ ": " ++
          article.title ++ ". " ++ article.description ++ " This story is from " ++
          article.source ++ ".")
    | .byCategory _ => .error ()

/-! ## Audio blob registry (src/main.py lines 657-696) -/

/-- Result of `GET /api/audio/{audio_id}`. -/
inductive ServeResult where
  | served (audio : Audio) : ServeResult
  | httpError (status : Nat) (detail : String) : ServeResult
deriving DecidableEq, Repr

/-- Registration in `handle_text_input` (main.py line 661):
`audio_storage[audio_id] = audio_response`. -/
def registerAudio (storage : List (String × Audio)) (audio_id : String) (audio : Audio) :
    List (String × Audio) :=
  storage ++ [(audio_id, audio)]

/-- Dict membership / lookup for the storage. -/
def lookupAudio (storage : List (String × Audio)) (audio_id : String) : Option Audio :=
  (storage.find? (fun p => p.1 = audio_id)).map Prod.snd

/-- Deletion `del audio_storage[audio_id]`. -/
def deleteAudio (storage : List (String × Audio)) (audio_id : String) :
    List (String × Audio) :=
  storage.filter (fun p => p.1 ≠ audio_id)

/-- Model of `serve_audio` (main.py lines 675-696): on a hit, return the bytes and
delete the entry; on a miss, the raised 404 `"Audio not found"` is caught
by the blanket `except Exception` on line 694, which re-raises
`HTTPException(500, "Error serving audio")` — that is what the caller
sees. -/
def serve_audio (storage : List (String × Audio)) (audio_id : String) :
    ServeResult × List (String × Audio) :=
  match lookupAudio storage audio_id with
  | some audio_data => (.served audio_data, deleteAudio storage audio_id)
  | none => (.httpError 500 "Error serving audio", storage)

/-! ## Spec-side (claimed) formulations, for refinement comparisons -/

/-- Per-article block as the amended formatting claim words it: title line,
then the first 25 words of a differing non-empty description with an
ellipsis exactly when the description has at least 25 words, then a blank
line. -/
def entryClaimed (i : Nat) (a : Article) : String :=
  "Headline " ++ toString i ++ ": " ++ a.title ++ ". " ++
    (if a.description ≠ "" ∧ a.description ≠ a.title then
      " ".intercalate ((pySplit a.description).take 25) ++
        (if 25 ≤ (pySplit a.description).length then "..." else "") ++ " "
    else "") ++ "\n\n"

/-- The voice formatter as the amended claim describes it: apology without
header for zero articles, else a header naming the category/label (without
an article count) followed by the per-article blocks in position order. -/
def formatSpeechClaimed (articles : List Article) (category : String) : String :=
  if articles.isEmpty then
    "Sorry, I couldn't fetch any news for " ++ category ++ " at the moment."
  else
    "Here are the top " ++ category ++ " news headlines:\n\n" ++
      ((List.enumFrom 1 articles).map (fun p => entryClaimed p.1 p.2)).foldr
        (fun x y => x ++ y) ""

/-! ## Helper lemmas -/

theorem normalizeFrom_length (l : List RawArticle) : ∀ i, (normalizeFrom i l).length = l.length := by
  induction l with
  | nil => intro i; rfl
  | cons a rest ih => intro i; simp [normalizeFrom, ih]

theorem normalizeFrom_get (l : List RawArticle) :
    ∀ i k (h : k < (normalizeFrom i l).length) (h2 : k < l.length),
      (normalizeFrom i l).get ⟨k, h⟩ = formatArticle (i + k) (l.get ⟨k, h2⟩) := by
  induction l with
  | nil => intro i k h h2; exact absurd h2 (Nat.not_lt_zero k)
  | cons a rest ih =>
      intro i k h h2
      cases k with
      | zero => rfl
      | succ k' =>
          have h' : k' < (normalizeFrom (i + 1) rest).length := by
            simpa [normalizeFrom] using h
          have h2' : k' < rest.length := Nat.lt_of_succ_lt_succ h2
          have heq := ih (i + 1) k' h' h2'
          show (normalizeFrom (i + 1) rest).get ⟨k', h'⟩ =
            formatArticle (i + (k' + 1)) (rest.get ⟨k', h2'⟩)
          rw [heq]
          congr 1
          omega

theorem normalize_length (raw : List RawArticle) (limit : Nat) :
    (normalize raw limit).length = min limit raw.length := by
  simp [normalize, normalizeFrom_length]

theorem normalize_get (raw : List RawArticle) (limit k : Nat)
    (h : k < (normalize raw limit).length) (h2 : k < raw.length) :
    (normalize raw limit).get ⟨k, h⟩ = formatArticle (1 + k) (raw.get ⟨k, h2⟩) := by
  have hk : k < (raw.take limit).length := by
    have := h; simpa [normalize, normalizeFrom_length] using this
  show (normalizeFrom 1 (raw.take limit)).get ⟨k, h⟩ = formatArticle (1 + k) (raw.get ⟨k, h2⟩)
  rw [normalizeFrom_get (raw.take limit) 1 k h hk]
  congr 1
  simp [List.get_take]

theorem foldl_push_eq_append {α β : Type} (f : α → β) (l : List α) :
    ∀ acc : List β, l.foldl (fun a x => a ++ [f x]) acc = acc ++ l.map f := by
  induction l with
  | nil => intro acc; simp
  | cons x rest ih => intro acc; simp [List.foldl_cons, ih]

theorem formatArticleJ_ok_fields (i : Nat) (a : RawArticleJ) (art : ArticleJ)
    (h : formatArticleJ i a = .ok art) :
    art.number = i ∧ art.title = jGetD a.title "" ∧
    art.description = jGetD a.description "" ∧
    jSourceName a.source = .ok art.source ∧
    art.url = jGetD a.url "" ∧ art.publishedAt = jGetD a.publishedAt "" := by
  unfold formatArticleJ at h
  cases hs : jSourceName a.source with
  | error e => rw [hs] at h; cases h
  | ok src =>
      rw [hs] at h
      cases h
      exact ⟨rfl, rfl, rfl, rfl, rfl, rfl⟩

theorem normalizeFromJ_ok_length (l : List RawArticleJ) :
    ∀ i arts, normalizeFromJ i l = .ok arts → arts.length = l.length := by
  induction l with
  | nil =>
      intro i arts h
      unfold normalizeFromJ at h
      cases h
      rfl
  | cons a rest ih =>
      intro i arts h
      unfold normalizeFromJ at h
      cases hfa : formatArticleJ i a with
      | error e => rw [hfa] at h; cases h
      | ok art =>
          rw [hfa] at h
          cases hrest : normalizeFromJ (i + 1) rest with
          | error e => rw [hrest] at h; cases h
          | ok arts₂ =>
              rw [hrest] at h
              cases h
              simp [ih (i + 1) arts₂ hrest]

theorem normalizeFromJ_ok_get (l : List RawArticleJ) :
    ∀ i arts, normalizeFromJ i l = .ok arts →
      ∀ k (hk : k < arts.length) (h2 : k < l.length),
        formatArticleJ (i + k) (l.get ⟨k, h2⟩) = .ok (arts.get ⟨k, hk⟩) := by
  induction l with
  | nil => intro i arts h k hk h2; exact absurd h2 (Nat.not_lt_zero k)
  | cons a rest ih =>
      intro i arts h k hk h2
      unfold normalizeFromJ at h
      cases hfa : formatArticleJ i a with
      | error e => rw [hfa] at h; cases h
      | ok art =>
          rw [hfa] at h
          cases hrest : normalizeFromJ (i + 1) rest with
          | error e => rw [hrest] at h; cases h
          | ok arts₂ =>
              rw [hrest] at h
              cases h
              cases k with
              | zero => simpa using hfa
              | succ k₂ =>
                  have hk₂ : k₂ < arts₂.length := Nat.lt_of_succ_lt_succ hk
                  have h2₂ : k₂ < rest.length := Nat.lt_of_succ_lt_succ h2
                  have := ih (i + 1) arts₂ hrest k₂ hk₂ h2₂
                  show formatArticleJ (i + (k₂ + 1)) (rest.get ⟨k₂, h2₂⟩) =
                    .ok (arts₂.get ⟨k₂, hk₂⟩)
                  rw [show i + (k₂ + 1) = (i + 1) + k₂ from by omega]
                  exact this

theorem normalizeFromJ_error_of_null (l : List RawArticleJ) :
    ∀ i, (∃ a, a ∈ l ∧ a.source = JSource.null) → normalizeFromJ i l = .error () := by
  induction l with
  | nil =>
      intro i h
      obtain ⟨a, ha, _⟩ := h
      cases ha
  | cons b rest ih =>
      intro i h
      obtain ⟨a, ha, hnull⟩ := h
      rcases List.mem_cons.mp ha with heq | hmem
      · subst heq
        have hfa : formatArticleJ i a = .error () := by
          unfold formatArticleJ
          rw [hnull]
          rfl
        simp only [normalizeFromJ, hfa]
      · have hrest := ih (i + 1) ⟨a, hmem, hnull⟩
        cases hfa : formatArticleJ i b with
        | error e =>
            cases e
            simp only [normalizeFromJ, hfa]
        | ok art => simp only [normalizeFromJ, hfa, hrest]

/-- Claim C4, counterexample: a description present with JSON null is
passed through by `dict.get("description", "")` as the stored `None`, so
the output article carries a null description — not the empty string the
claim promises for every provider response ("never null or absent"). -/
theorem null_description_not_replaced :
    get_top_headlinesJ "technology" "us"
        (some [⟨.str "T", .null, .obj (.str "S"), .str "U", .str "P"⟩]) 5 =
      [⟨1, some "T", none, some "S", some "U", some "P"⟩] ∧
    (none : Option String) ≠ some "" := by
  exact ⟨rfl, by decide⟩

/-- Claim C4, amended: for every provider response and limit,
`get_top_headlinesJ` and `search_newsJ` return at most `limit` articles
and agree with each other; when normalization completes on a parsed list
`raw`, the output has length `min limit |raw|` and its `k`-th article is
numbered `k+1` and carries, for title/description/url/publishedAt, the
empty string for an absent key but the stored null passed through for a
present JSON null, and for source the result of
`get("source", {}).get("name", "")`; a null source value in the window
makes the whole fetch raise inside the `try` and return `[]`. -/
theorem headlines_and_search_null_semantics (category country query : String)
    (resp : Option (List RawArticleJ)) (raw : List RawArticleJ) (arts : List ArticleJ)
    (limit k : Nat)
    (hnorm : normalizeJ raw limit = .ok arts)
    (hk : k < arts.length) (h2 : k < raw.length) :
    (get_top_headlinesJ category country resp limit).length ≤ limit ∧
    (search_newsJ query resp limit).length ≤ limit ∧
    search_newsJ query (some raw) limit = get_top_headlinesJ category country (some raw) limit ∧
    get_top_headlinesJ category country (some raw) limit = arts ∧
    arts.length = min limit raw.length ∧
    ((arts.get ⟨k, hk⟩).number = k + 1 ∧
      (arts.get ⟨k, hk⟩).title = jGetD (raw.get ⟨k, h2⟩).title "" ∧
      (arts.get ⟨k, hk⟩).description = jGetD (raw.get ⟨k, h2⟩).description "" ∧
      jSourceName (raw.get ⟨k, h2⟩).source = .ok (arts.get ⟨k, hk⟩).source ∧
      (arts.get ⟨k, hk⟩).url = jGetD (raw.get ⟨k, h2⟩).url "" ∧
      (arts.get ⟨k, hk⟩).publishedAt = jGetD (raw.get ⟨k, h2⟩).publishedAt "") ∧
    (∀ raw₂ : List RawArticleJ,
      (∃ a, a ∈ raw₂.take limit ∧ a.source = JSource.null) →
      get_top_headlinesJ category country (some raw₂) limit = []) := by
  have hlen : arts.length = (raw.take limit).length :=
    normalizeFromJ_ok_length (raw.take limit) 1 arts hnorm
  have hlen_top : ∀ (r : Option (List RawArticleJ)),
      (get_top_headlinesJ category country r limit).length ≤ limit := by
    intro r
    cases r with
    | none => simp [get_top_headlinesJ]
    | some l =>
        cases hn : normalizeJ l limit with
        | error e => simp [get_top_headlinesJ, hn]
        | ok a =>
            have hll := normalizeFromJ_ok_length (l.take limit) 1 a hn
            simp only [get_top_headlinesJ, hn]
            rw [hll]
            exact List.length_take_le limit l
  have hlen_search : ∀ (r : Option (List RawArticleJ)),
      (search_newsJ query r limit).length ≤ limit := by
    intro r
    cases r with
    | none => simp [search_newsJ]
    | some l =>
        cases hn : normalizeJ l limit with
        | error e => simp [search_newsJ, hn]
        | ok a =>
            have hll := normalizeFromJ_ok_length (l.take limit) 1 a hn
            simp only [search_newsJ, hn]
            rw [hll]
            exact List.length_take_le limit l
  refine ⟨hlen_top resp, hlen_search resp, rfl, ?_, ?_, ?_, ?_⟩
  · simp only [get_top_headlinesJ, hnorm]
  · rw [hlen, List.length_take]
  · have hkt : k < (raw.take limit).length := by rw [← hlen]; exact hk
    have hget := normalizeFromJ_ok_get (raw.take limit) 1 arts hnorm k hk hkt
    have htake : (raw.take limit).get ⟨k, hkt⟩ = raw.get ⟨k, h2⟩ := by
      simp [List.get_take]
    rw [htake] at hget
    have hfields := formatArticleJ_ok_fields (1 + k) (raw.get ⟨k, h2⟩) (arts.get ⟨k, hk⟩) hget
    exact ⟨by rw [hfields.1]; omega, hfields.2.1, hfields.2.2.1, hfields.2.2.2.1,
      hfields.2.2.2.2.1, hfields.2.2.2.2.2⟩
  · intro raw₂ hnull
    have herr := normalizeFromJ_error_of_null (raw₂.take limit) 1 hnull
    simp only [get_top_headlinesJ, normalizeJ, herr]

/-- Witness for the amended C4 at a provider article mixing an absent url
(replaced by the empty string) with a null description (passed through). -/
theorem headlines_and_search_null_semantics_witness :
    get_top_headlinesJ "business" "us"
        (some [⟨.str "T1", .null, .obj (.str "S1"), .absent, .str "P1"⟩]) 5 =
      [⟨1, some "T1", none, some "S1", some "", some "P1"⟩] := by
  exact (headlines_and_search_null_semantics "business" "us" "q"
    (some [⟨.str "T1", .null, .obj (.str "S1"), .absent, .str "P1"⟩])
    [⟨.str "T1", .null, .obj (.str "S1"), .absent, .str "P1"⟩]
    [⟨1, some "T1", none, some "S1", some "", some "P1"⟩] 5 0
    rfl (by decide) (by decide)).2.2.2.1

/-- Claim C7: `get_all_categories_news` lists all 7 fixed categories in
declaration order; a category whose fetch fails (`none`) is paired with
the empty list, every other category with its normalized articles; no
failure aborts the batch. -/
theorem all_categories_isolated (fetch : String → Option (List RawArticle)) (limit : Nat) :
    (get_all_categories_news fetch limit).map Prod.fst = NEWS_CATEGORIES ∧
    (∀ c, c ∈ NEWS_CATEGORIES →
      (c, get_top_headlines c "us" (fetch c) limit) ∈ get_all_categories_news fetch limit) ∧
    (∀ c, c ∈ NEWS_CATEGORIES → fetch c = none →
      (c, ([] : List Article)) ∈ get_all_categories_news fetch limit) ∧
    (∀ c raw, c ∈ NEWS_CATEGORIES → fetch c = some raw →
      (c, normalize raw limit) ∈ get_all_categories_news fetch limit) := by
  have hrepr : get_all_categories_news fetch limit =
      NEWS_CATEGORIES.map (fun c => (c, get_top_headlines c "us" (fetch c) limit)) := by
    simpa using foldl_push_eq_append
      (fun c => (c, get_top_headlines c "us" (fetch c) limit)) NEWS_CATEGORIES []
  refine ⟨?_, ?_, ?_, ?_⟩
  · rw [hrepr, List.map_map]
    have hcomp : (Prod.fst ∘ fun c => (c, get_top_headlines c "us" (fetch c) limit)) =
        (fun c : String => c) := by
      funext c; rfl
    rw [hcomp]
    simp
  · intro c hc; rw [hrepr]; exact List.mem_map_of_mem _ hc
  · intro c hc hf
    have := List.mem_map_of_mem (fun c => (c, get_top_headlines c "us" (fetch c) limit)) hc
    rw [hrepr]
    simpa [hf, get_top_headlines] using this
  · intro c raw hc hf
    have := List.mem_map_of_mem (fun c => (c, get_top_headlines c "us" (fetch c) limit)) hc
    rw [hrepr]
    simpa [hf, get_top_headlines] using this

/-- Witness for C7: with the sports fetch failing and every other category
returning one article, sports maps to `[]` and technology is populated. -/
theorem all_categories_isolated_witness :
    ("sports", ([] : List Article)) ∈
      get_all_categories_news
        (fun c => if c = "sports" then none else some [{ title := some "T" }]) 3 ∧
    ("technology", normalize [{ title := some "T" }] 3) ∈
      get_all_categories_news
        (fun c => if c = "sports" then none else some [{ title := some "T" }]) 3 := by
  constructor
  · exact (all_categories_isolated
      (fun c => if c = "sports" then none else some [{ title := some "T" }]) 3).2.2.1
      "sports" (by decide) (by simp)
  · exact (all_categories_isolated
      (fun c => if c = "sports" then none else some [{ title := some "T" }]) 3).2.2.2
      "technology" [{ title := some "T" }] (by decide) (by simp)

/-- Claim C9: Registering a blob under a fresh key, the first retrieval
returns the stored bytes and deletes the entry, and the second retrieval
of the same key is not served the blob again; but instead of the intended
404 `"Audio not found"` (unreachable: the raise is caught by `serve_audio`'s
own blanket `except Exception`), the caller sees a 500
`"Error serving audio"`. -/
theorem audio_served_once_then_500 :
    serve_audio (registerAudio [] "k1" [1, 2, 3]) "k1" = (.served [1, 2, 3], []) ∧
    (serve_audio (serve_audio (registerAudio [] "k1" [1, 2, 3]) "k1").2 "k1").1 =
      .httpError 500 "Error serving audio" ∧
    (ServeResult.httpError 500 "Error serving audio" ≠ .httpError 404 "Audio not found") := by
  refine ⟨?_, ?_, by decide⟩ <;> rfl

/-- Claim C10: `get_detailed_article` returns the fixed message when no news
is stored or the number is out of 1..len, and the detail text from the
`n`-th stored article when `last_news_data` is a flat article list; but
when `last_news_data` holds the category dict stored by a `"general"`
fetch, an in-range number passes the length guard and the integer
subscript into the dict raises `KeyError`. -/
theorem detailed_article_bounds_and_dict_keyerror :
    (get_detailed_article { } 1 =
      .ok "I don't have that article number. Please ask for a valid article number from the recent news.") ∧
    (get_detailed_article
        { last_news_data := some (.articles
            [{ number := 1, title := "T1", description := "D1", source := "S1", url := "", publishedAt := "" },
             { number := 2, title := "T2", description := "D2", source := "S2", url := "", publishedAt := "" }]) } 0 =
      .ok "I don't have that article number. Please ask for a valid article number from the recent news.") ∧
    (get_detailed_article
        { last_news_data := some (.articles
            [{ number := 1, title := "T1", description := "D1", source := "S1", url := "", publishedAt := "" },
             { number := 2, title := "T2", description := "D2", source := "S2", url := "", publishedAt := "" }]) } 3 =
      .ok "I don't have that article number. Please ask for a valid article number from the recent news.") ∧
    (get_detailed_article
        { last_news_data := some (.articles
            [{ number := 1, title := "T1", description := "D1", source := "S1", url := "", publishedAt := "" },
             { number := 2, title := "T2", description := "D2", source := "S2", url := "", publishedAt := "" }]) } 2 =
      .ok "Here's more detail about article 2: T2. D2 This story is from S2.") ∧
    (get_detailed_article
        { last_news_data := some (.byCategory
            [("technology", [{ number := 1, title := "T", description := "D", source := "S", url := "", publishedAt := "" }]),
             ("sports", [])]) } 1 =
      .error ()) := by
  refine ⟨?_, ?_, ?_, ?_, ?_⟩ <;> rfl

/-- Claim C8: When transcription yields `none` or an empty transcript,
`handle_voice_input` returns the fixed clarification text with exactly
the audio the synthesis attempt for that text produced, the session
untouched; the result is the same for every classifier, i.e. the
classifier is never consulted. -/
theorem voice_empty_transcript_clarifies (O : Oracles) (s : Session) (voice : String)
    (au : Option Audio)
    (ht : O.transcribe = .ok none ∨ O.transcribe = .ok (some ""))
    (hs : O.synth clarifText voice = .ok au) :
    handle_voice_input O s voice = .ok ((clarifText, au), s) ∧
    (∀ c, handle_voice_input { O with classify := c } s voice = .ok ((clarifText, au), s)) := by
  have hbody : ∀ c, handle_voice_body { O with classify := c } s voice =
      .ok ((clarifText, au), s) := by
    intro c
    rcases ht with h | h <;>
      simp [handle_voice_body, h, hs]
  have hmain : handle_voice_body O s voice = .ok ((clarifText, au), s) := by
    rcases ht with h | h <;>
      simp [handle_voice_body, h, hs]
  constructor
  · simp [handle_voice_input, hmain]
  · intro c
    simp [handle_voice_input, hbody c]

/-- Witness for C8: a concrete transcriber returning `none`, with a
succeeding synthesis; instantiated at two different classifiers. -/
theorem voice_empty_transcript_clarifies_witness :
    handle_voice_input
      { transcribe := .ok none, classify := .ok { }, fetchTop := fun _ => .ok [],
        fetchAll := .ok [], search := fun _ => .ok [],
        synth := fun _ _ => .ok (some [7]) } { } "female" =
      .ok ((clarifText, some [7]), { }) ∧
    handle_voice_input
      { transcribe := .ok none, classify := .error (), fetchTop := fun _ => .ok [],
        fetchAll := .ok [], search := fun _ => .ok [],
        synth := fun _ _ => .ok (some [7]) } { } "female" =
      .ok ((clarifText, some [7]), { }) := by
  constructor
  · exact (voice_empty_transcript_clarifies
      { transcribe := .ok none, classify := .ok { }, fetchTop := fun _ => .ok [],
        fetchAll := .ok [], search := fun _ => .ok [],
        synth := fun _ _ => .ok (some [7]) } { } "female" (some [7])
      (Or.inl rfl) rfl).1
  · exact (voice_empty_transcript_clarifies
      { transcribe := .ok none, classify := .ok { }, fetchTop := fun _ => .ok [],
        fetchAll := .ok [], search := fun _ => .ok [],
        synth := fun _ _ => .ok (some [7]) } { } "female" (some [7])
      (Or.inl rfl) rfl).2 (.error ())

/-- Claim C6, counterexample: A `search_news` turn whose classifier result
carries no search query returns the clarification request and leaves the
session completely unchanged: `last_search`, `last_news_data` and
`last_action` are not updated, contradicting "after a search_news branch
the Session's ... fields are updated". -/
theorem search_branch_empty_query_no_update :
    handle_intent
      { transcribe := .ok (some "x"), classify := .ok { }, fetchTop := fun _ => .ok [],
        fetchAll := .ok [],
        search := fun _ => .ok [⟨1, "T", "", "", "", ""⟩],
        synth := fun _ _ => .ok none } { }
      { intent := some "news_search", action := some "search_news" } =
      ("I need a specific topic to search for. What news would you like me to find?", { }) ∧
    (Session.last_action { } = none ∧ Session.last_news_data { } = none ∧
      Session.last_search { } = none) := by
  exact ⟨rfl, rfl, rfl, rfl⟩

/-- Claim C6, amended: Session frame conditions of `_handle_intent`:
a `fetch_news` turn whose fetch completes stores the fetched data (even if
empty) with `last_action = "news_fetch"`; a `search_news` turn with a
non-empty query whose search completes stores the query and results (even
if empty) with `last_action = "news_search"`; a `search_news` turn with an
empty/absent query, any other or unrecognized action, and any raising
branch all leave the session unchanged. -/
theorem session_update_frame (O : Oracles) (s : Session) (resp : AIResponse) :
    (∀ category articles, resp.action = some "fetch_news" → resp.category = some category →
      category ≠ "general" → O.fetchTop category = .ok articles →
      handle_intent O s resp =
        ((if articles.isEmpty then
            "I'm sorry, I couldn't fetch " ++ category ++
              " news at the moment. Would you like news from another category?"
          else format_news_for_speech articles category),
         { s with last_category := some category
                  last_news_data := some (.articles articles)
                  last_action := some "news_fetch" })) ∧
    (∀ all_news, resp.action = some "fetch_news" → resp.category.getD "general" = "general" →
      O.fetchAll = .ok all_news →
      (handle_intent O s resp).2 =
        { s with last_category := some "general"
                 last_news_data := some (.byCategory all_news)
                 last_action := some "news_fetch" }) ∧
    (∀ q results, resp.action = some "search_news" → resp.search_query = some q → q ≠ "" →
      O.search q = .ok results →
      (handle_intent O s resp).2 =
        { s with last_search := some q
                 last_news_data := some (.articles results)
                 last_action := some "news_search" }) ∧
    (resp.action = some "search_news" → resp.search_query.getD "" = "" →
      (handle_intent O s resp).2 = s) ∧
    (resp.action.getD "respond_only" ≠ "fetch_news" →
      resp.action.getD "respond_only" ≠ "search_news" →
      handle_intent O s resp =
        (resp.response.getD "I'm here to help you with news updates!", s)) ∧
    (resp.action = some "fetch_news" → resp.category.getD "general" ≠ "general" →
      O.fetchTop (resp.category.getD "general") = .error () →
      (handle_intent O s resp).2 = s) ∧
    (resp.action = some "search_news" → resp.search_query.getD "" ≠ "" →
      O.search (resp.search_query.getD "") = .error () →
      (handle_intent O s resp).2 = s) := by
  refine ⟨?_, ?_, ?_, ?_, ?_, ?_, ?_⟩
  · intro category articles ha hc hne hf
    simp [handle_intent, handle_news_request, ha, hc, hne, hf]
  · intro all_news ha hc hf
    simp [handle_intent, handle_news_request, ha, hc, hf]
  · intro q results ha hq hne hres
    simp [handle_intent, handle_news_search, ha, hq, hne, hres]
  · intro ha hq
    simp [handle_intent, handle_news_search, ha, hq]
  · intro h1 h2
    simp [handle_intent, h1, h2]
  · intro ha hc hf
    simp [handle_intent, handle_news_request, ha, hc, hf]
  · intro ha hq hres
    simp [handle_intent, handle_news_search, ha, hq, hres]

/-- Witness for the amended C6: a sports fetch returning no articles still
stores the empty result, and a respond-only turn echoes the draft and
leaves the session unchanged. -/
theorem session_update_frame_witness :
    handle_intent
      { transcribe := .ok (some "x"), classify := .ok { }, fetchTop := fun _ => .ok [],
        fetchAll := .ok [], search := fun _ => .ok [], synth := fun _ _ => .ok none } { }
      { intent := some "news_category", category := some "sports", action := some "fetch_news" } =
      ("I'm sorry, I couldn't fetch sports news at the moment. Would you like news from another category?",
       { last_category := some "sports", last_news_data := some (.articles []),
         last_action := some "news_fetch" }) ∧
    handle_intent
      { transcribe := .ok (some "x"), classify := .ok { }, fetchTop := fun _ => .ok [],
        fetchAll := .ok [], search := fun _ => .ok [], synth := fun _ _ => .ok none } { }
      { intent := some "greeting", response := some "Hello there!", action := some "respond_only" } =
      ("Hello there!", { }) := by
  constructor
  · have := (session_update_frame
      { transcribe := .ok (some "x"), classify := .ok { }, fetchTop := fun _ => .ok [],
        fetchAll := .ok [], search := fun _ => .ok [], synth := fun _ _ => .ok none } { }
      { intent := some "news_category", category := some "sports",
        action := some "fetch_news" }).1 "sports" [] rfl rfl (by decide) rfl
    simpa using this
  · exact (session_update_frame
      { transcribe := .ok (some "x"), classify := .ok { }, fetchTop := fun _ => .ok [],
        fetchAll := .ok [], search := fun _ => .ok [], synth := fun _ _ => .ok none } { }
      { intent := some "greeting", response := some "Hello there!",
        action := some "respond_only" }).2.2.2.2.1 (by decide) (by decide)

/-- Claim C1, counterexample: With the classifier call raising,
`handle_text_input` returns its own fixed apology
`"I'm sorry, I encountered an error processing your request."` with null
audio even though synthesis succeeds on every text — not the claimed
`"I'm experiencing some technical difficulties..."` text with best-effort
audio. -/
theorem text_input_error_text_differs :
    handle_text_input
      { transcribe := .ok (some "x"), classify := .error (), fetchTop := fun _ => .ok [],
        fetchAll := .ok [], search := fun _ => .ok [],
        synth := fun _ _ => .ok (some [1]) } { } "female" =
      ((textErrText, none), { }) ∧
    textErrText ≠ techDiffText := by
  exact ⟨rfl, by decide⟩

/-- Claim C1, amended: Top-level failure semantics of the two public
operations: `handle_text_input` converts any raise (from classification or
synthesis) into `(textErrText, none)` — a usable pair, no audio attempt —
and otherwise returns the computed text with the synthesized audio;
`handle_voice_input` converts any raise in its body into `techDiffText`
with best-effort audio, the recovery escaping only if the recovery
synthesis itself raises. -/
theorem public_ops_catch_all (O : Oracles) (s : Session) (voice : String) :
    (O.classify = .error () → handle_text_input O s voice = ((textErrText, none), s)) ∧
    (∀ resp, O.classify = .ok resp →
      O.synth (handle_intent O s resp).1 voice = .error () →
      handle_text_input O s voice = ((textErrText, none), (handle_intent O s resp).2)) ∧
    (∀ resp audio, O.classify = .ok resp →
      O.synth (handle_intent O s resp).1 voice = .ok audio →
      handle_text_input O s voice =
        (((handle_intent O s resp).1, audio), (handle_intent O s resp).2)) ∧
    (∀ s₁ audio, handle_voice_body O s voice = .error s₁ →
      O.synth techDiffText voice = .ok audio →
      handle_voice_input O s voice = .ok ((techDiffText, audio), s₁)) ∧
    (∀ s₁, handle_voice_body O s voice = .error s₁ →
      O.synth techDiffText voice = .error () →
      handle_voice_input O s voice = .error s₁) ∧
    (∀ r, handle_voice_body O s voice = .ok r → handle_voice_input O s voice = .ok r) := by
  refine ⟨?_, ?_, ?_, ?_, ?_, ?_⟩
  · intro h; simp [handle_text_input, h]
  · intro resp hc hs; simp [handle_text_input, hc, hs]
  · intro resp audio hc hs; simp [handle_text_input, hc, hs]
  · intro s₁ audio hb hs; simp [handle_voice_input, hb, hs]
  · intro s₁ hb hs; simp [handle_voice_input, hb, hs]
  · intro r hb; simp [handle_voice_input, hb]

/-- Witness for the amended C1: a raising transcription is recovered by
the voice handler as `techDiffText` with the synthesized audio, and a
raising classification by the text handler as `(textErrText, none)`. -/
theorem public_ops_catch_all_witness :
    handle_voice_input
      { transcribe := .error (), classify := .ok { }, fetchTop := fun _ => .ok [],
        fetchAll := .ok [], search := fun _ => .ok [],
        synth := fun _ _ => .ok (some [9]) } { } "male" =
      .ok ((techDiffText, some [9]), { }) ∧
    handle_text_input
      { transcribe := .error (), classify := .error (), fetchTop := fun _ => .ok [],
        fetchAll := .ok [], search := fun _ => .ok [],
        synth := fun _ _ => .ok (some [9]) } { } "male" =
      ((textErrText, none), { }) := by
  constructor
  · exact (public_ops_catch_all
      { transcribe := .error (), classify := .ok { }, fetchTop := fun _ => .ok [],
        fetchAll := .ok [], search := fun _ => .ok [],
        synth := fun _ _ => .ok (some [9]) } { } "male").2.2.2.1 { } (some [9]) rfl rfl
  · exact (public_ops_catch_all
      { transcribe := .error (), classify := .error (), fetchTop := fun _ => .ok [],
        fetchAll := .ok [], search := fun _ => .ok [],
        synth := fun _ _ => .ok (some [9]) } { } "male").1 rfl

theorem strContains_append_left (s a b : String)
    (h : strContains s (a ++ b) = true) : strContains s a = true := by
  unfold strContains at h ⊢
  rw [List.any_eq_true] at h ⊢
  obtain ⟨t, ht, hp⟩ := h
  refine ⟨t, ht, ?_⟩
  rw [ List.isPrefixOf_iff_prefix] at hp ⊢
  have hd : (a ++ b).toList = a.toList ++ b.toList := by
    simp [String.toList, String.data_append]
  rw [hd] at hp
  exact List.IsPrefix.trans (List.prefix_append _ _) hp

theorem find?_congr_local {α : Type} (p q : α → Bool) (l : List α)
    (h : ∀ a ∈ l, p a = q a) : l.find? p = l.find? q := by
  induction l with
  | nil => rfl
  | cons x rest ih =>
      have hx := h x (List.mem_cons_self x rest)
      rw [List.find?_cons, List.find?_cons, hx]
      cases q x with
      | true => rfl
      | false => exact ih (fun a ha => h a (List.mem_cons_of_mem x ha))

/-- Claim C2: The fallback parser agrees everywhere with the precedence the
specification states (category name, then news/headlines/updates, then
greeting words, then verbatim echo of the raw model text): the redundant
second disjunct `"{category} news" in text` of the source never changes
the first matching category.  In particular `"sports news please"` maps to
intent `news_category`, category `sports`, action `fetch_news`. -/
theorem fallback_matches_spec_precedence :
    (∀ ai_response user_text,
      parse_fallback_response ai_response user_text = fallbackSpec ai_response user_text) ∧
    parse_fallback_response "not json" "sports news please" =
      { intent := some "news_category", category := some "sports",
        response := some "Let me get the latest sports news for you.",
        action := some "fetch_news" } := by
  constructor
  · intro ai_response user_text
    unfold parse_fallback_response fallbackSpec
    have hfind : NEWS_CATEGORIES.find?
        (fun c => strContains (pyLower user_text) c ||
          strContains (pyLower user_text) (c ++ " news")) =
        NEWS_CATEGORIES.find? (fun c => strContains (pyLower user_text) c) := by
      apply find?_congr_local
      intro c _
      cases hc : strContains (pyLower user_text) c with
      | true => simp [hc]
      | false =>
          simp only [hc, Bool.false_or]
          cases hcn : strContains (pyLower user_text) (c ++ " news") with
          | false => rfl
          | true => exact absurd (strContains_append_left _ c " news" hcn) (by simp [hc])
    simp only [hfind]
  · decide

/-- Claim C3, counterexample: A description of exactly 25 words is not
truncated (taking its first 25 words keeps all of them), yet the formatter
appends the ellipsis; the output also shows the header names only the
category, with no article count. -/
theorem speech_format_ellipsis_without_truncation :
    (pySplit "a b c d e f g h i j k l m n o p q r s t u v w x y").length = 25 ∧
    ((pySplit "a b c d e f g h i j k l m n o p q r s t u v w x y").take 25 =
      pySplit "a b c d e f g h i j k l m n o p q r s t u v w x y") ∧
    format_news_for_speech
        [⟨1, "T", "a b c d e f g h i j k l m n o p q r s t u v w x y", "S", "", ""⟩]
        "technology" =
      "Here are the top technology news headlines:\n\nHeadline 1: T. a b c d e f g h i j k l m n o p q r s t u v w x y... \n\n" := by
  refine ⟨by decide, by decide, ?_⟩
  rfl

theorem headlineBlock_eq_entryClaimed (i : Nat) (a : Article) :
    headlineBlock i a = entryClaimed i a := by
  simp only [headlineBlock, entryClaimed]
  by_cases h : a.description ≠ "" ∧ a.description ≠ a.title
  · rw [if_pos h, if_pos h]
    by_cases h25 : 25 ≤ (pySplit a.description).length
    · have hl : ((pySplit a.description).take 25).length = 25 := by
        rw [List.length_take]; omega
      rw [if_pos hl, if_pos h25]
      simp [String.append_assoc]
    · have hl : ¬ ((pySplit a.description).take 25).length = 25 := by
        rw [List.length_take]; omega
      rw [if_neg hl, if_neg h25]
      simp [String.append_assoc, String.append_empty]
  · rw [if_neg h, if_neg h]
    simp [String.append_assoc, String.append_empty]

theorem speechLoop_eq_join (l : List Article) :
    ∀ (i : Nat) (acc : String),
      speechLoop i acc l =
        acc ++ ((List.enumFrom i l).map (fun p => headlineBlock p.1 p.2)).foldr
          (fun x y => x ++ y) "" := by
  induction l with
  | nil => intro i acc; simp [speechLoop, String.append_empty]
  | cons a rest ih =>
      intro i acc
      rw [speechLoop, ih (i + 1) (acc ++ headlineBlock i a)]
      simp [List.enumFrom, String.append_assoc]

/-- Claim C3, amended: The shared voice formatter agrees everywhere with
the amended description: a single apology naming the category/label for
zero articles, otherwise a header naming the category/label (without a
count) followed by, per article, `"Headline {i}: {title}. "`, the first
25 words of a non-empty description differing from the title with an
ellipsis exactly when the description has at least 25 words, and a blank
line. -/
theorem speech_format_matches_amended_claim (articles : List Article) (category : String) :
    format_news_for_speech articles category = formatSpeechClaimed articles category := by
  unfold format_news_for_speech formatSpeechClaimed
  by_cases h : articles.isEmpty
  · simp [h]
  · simp only [h, if_neg, Bool.false_eq_true, not_false_eq_true]
    rw [speechLoop_eq_join]
    congr 1
    apply congrArg
    apply List.map_congr_left
    intro p _
    exact headlineBlock_eq_entryClaimed p.1 p.2

theorem lastN_append_singleton {α : Type} (n : Nat) (l : List α) (x : α) :
    lastN (n + 1) (l ++ [x]) = lastN n l ++ [x] := by
  unfold lastN
  have h1 : (l ++ [x]).length - (n + 1) = l.length - n := by
    simp [List.length_append]
  rw [h1, List.drop_append_eq_append_drop]
  have h2 : l.length - n - l.length = 0 := by omega
  rw [h2]
  rfl

theorem lastN_length_le {α : Type} (n : Nat) (l : List α) : (lastN n l).length ≤ n := by
  unfold lastN
  rw [List.length_drop]
  omega

/-- Claim C5, counterexample: With five stored turns, the next request
holds only 6 messages — the system prompt plus the most recent 5 stored
entries, the just-appended current user text among them — not the claimed
7 (system prompt + current text + 5 prior turns): the oldest stored turn
`"u1"` is dropped although the claim would include it. -/
theorem request_window_differs_from_claim :
    (process_user_input
        [⟨"user", "u1"⟩, ⟨"assistant", "a1"⟩, ⟨"user", "u2"⟩, ⟨"assistant", "a2"⟩,
         ⟨"user", "u3"⟩] "u4" (.reply none "raw")).1 ≠
      claimedRequest
        [⟨"user", "u1"⟩, ⟨"assistant", "a1"⟩, ⟨"user", "u2"⟩, ⟨"assistant", "a2"⟩,
         ⟨"user", "u3"⟩] "u4" ∧
    (process_user_input
        [⟨"user", "u1"⟩, ⟨"assistant", "a1"⟩, ⟨"user", "u2"⟩, ⟨"assistant", "a2"⟩,
         ⟨"user", "u3"⟩] "u4" (.reply none "raw")).1.length = 6 ∧
    (claimedRequest
        [⟨"user", "u1"⟩, ⟨"assistant", "a1"⟩, ⟨"user", "u2"⟩, ⟨"assistant", "a2"⟩,
         ⟨"user", "u3"⟩] "u4").length = 7 ∧
    (⟨"user", "u1"⟩ : ChatMsg) ∉
      (process_user_input
        [⟨"user", "u1"⟩, ⟨"assistant", "a1"⟩, ⟨"user", "u2"⟩, ⟨"assistant", "a2"⟩,
         ⟨"user", "u3"⟩] "u4" (.reply none "raw")).1 := by
  refine ⟨by decide, by decide, by decide, by decide⟩

/-- Claim C5, amended: The stored history is append-only (the input history
is a strict prefix of the stored result, which gains the user message and,
when the upstream call returns, the assistant reply), while each request
consists of the system prompt, the most recent 4 prior stored entries and
the current user text last — at most 6 messages; entries older than that
window are not part of the request. -/
theorem request_window_amended (history : List ChatMsg) (user_text : String) (m : ModelReply) :
    (process_user_input history user_text m).1 =
      systemMsg :: (lastN 4 history ++ [⟨"user", user_text⟩]) ∧
    (process_user_input history user_text m).1.length ≤ 6 ∧
    history <+: (process_user_input history user_text m).2.2 ∧
    history.length < (process_user_input history user_text m).2.2.length ∧
    (m = .failure →
      (process_user_input history user_text m).2.2 = history ++ [⟨"user", user_text⟩]) ∧
    (∀ parsed raw, m = .reply parsed raw →
      (process_user_input history user_text m).2.2 =
        history ++ [⟨"user", user_text⟩, ⟨"assistant", raw⟩]) := by
  have hreq : ∀ (r : AIResponse) (h' : List ChatMsg),
      (systemMsg :: lastN 5 (history ++ [⟨"user", user_text⟩]), r, h').1 =
        systemMsg :: (lastN 4 history ++ [⟨"user", user_text⟩]) := by
    intro r h'
    show systemMsg :: lastN 5 (history ++ [⟨"user", user_text⟩]) = _
    rw [show (5 : Nat) = 4 + 1 from rfl, lastN_append_singleton]
  refine ⟨?_, ?_, ?_, ?_, ?_, ?_⟩
  · cases m with
    | failure => exact hreq _ _
    | reply parsed raw => cases parsed <;> exact hreq _ _
  · have : (process_user_input history user_text m).1 =
        systemMsg :: (lastN 4 history ++ [⟨"user", user_text⟩]) := by
      cases m with
      | failure => exact hreq _ _
      | reply parsed raw => cases parsed <;> exact hreq _ _
    rw [this]
    have := lastN_length_le 4 history
    simp [List.length_append]
    omega
  · cases m with
    | failure => exact List.prefix_append history _
    | reply parsed raw =>
        cases parsed <;>
          exact List.IsPrefix.trans (List.prefix_append history _) (List.prefix_append _ _)
  · cases m with
    | failure => simp [process_user_input]
    | reply parsed raw => cases parsed <;> simp [process_user_input]
  · intro hm
    subst hm
    rfl
  · intro parsed raw hm
    subst hm
    cases parsed <;> simp [process_user_input]

/-- Witness for the amended C5 at a two-turn history and a parsed reply. -/
theorem request_window_amended_witness :
    (process_user_input [⟨"user", "u1"⟩, ⟨"assistant", "a1"⟩] "u2"
        (.reply none "raw")).2.2 =
      [⟨"user", "u1"⟩, ⟨"assistant", "a1"⟩, ⟨"user", "u2"⟩, ⟨"assistant", "raw"⟩] := by
  have := (request_window_amended [⟨"user", "u1"⟩, ⟨"assistant", "a1"⟩] "u2"
    (.reply none "raw")).2.2.2.2.2 none "raw" rfl
  simpa using this

end Akashvani
